import Mathlib

/-!
Shallow embedding of the syllabus-parsing core of the repository
(`college/parser.py`): the `ContentParser` class (marker-based region
extraction, line windowing, table building and projection), the
`TableList` catalog and the `Table` record.

Python strings are modelled as `List Char`; Python `str.find`,
slicing (including negative indices), `str.split`, `str.join` and
list indexing are modelled by executable functions with Python's
semantics.  A Python exception is modelled by a `PyErr` value: methods
that can raise return it in an `Option PyErr` / `Except PyErr`
component, and a method that *returns* an error object (rather than
raising it) returns it as an ordinary value.
-/

set_option autoImplicit false

universe u

/-- Python strings are modelled as lists of characters. -/
abbrev Str := List Char

/-- The character list of a Lean string literal (used for concrete inputs). -/
def chars (s : String) : Str := s.toList

/-- Normalise one bound of a Python slice `l[i:j]` for a list of length `L`:
a negative bound counts from the end (clamped below at 0), a non-negative
bound is clamped above at `L`. -/
def normIdx (L : Nat) (k : Int) : Nat :=
  if k < 0 then (k + L).toNat else min k.toNat L

/-- Python slice `l[i:j]` (step 1), with Python's clamping and
negative-index semantics. -/
def pySlice {α : Type u} (l : List α) (i j : Int) : List α :=
  (l.take (normIdx l.length j)).drop (normIdx l.length i)

/-- Python indexing `l[i]` (negative indices count from the end);
`none` models an `IndexError`. -/
def pyGet {α : Type u} (l : List α) (i : Int) : Option α :=
  if 0 ≤ i then l.get? i.toNat
  else if i + l.length < 0 then none
  else l.get? (i + l.length).toNat

/-- `startsWithL sub s` is true when `sub` occurs at the beginning of `s`. -/
def startsWithL : Str → Str → Bool
  | [], _ => true
  | _ :: _, [] => false
  | a :: sub, b :: s => if a = b then startsWithL sub s else false

/-- Scan of Python `str.find`: the first index `≥ i` (counting from `i`)
where `sub` occurs in `s`. -/
def pyFindAux (sub : Str) : Str → Nat → Option Nat
  | s, i =>
    if startsWithL sub s then some i
    else
      match s with
      | [] => none
      | _ :: t => pyFindAux sub t (i + 1)

/-- Python `s.find(sub)`: index of the first occurrence of `sub` in `s`,
`-1` when there is none. -/
def pyFind (s sub : Str) : Int :=
  match pyFindAux sub s 0 with
  | some n => (n : Int)
  | none => -1

/-- Helper for Python `s.split(sep)` (single-character separator):
returns the first field and the remaining fields. -/
def splitAux (sep : Char) : Str → Str × List Str
  | [] => ([], [])
  | c :: rest =>
    let (h, t) := splitAux sep rest
    if c = sep then ([], h :: t) else (c :: h, t)

/-- Python `s.split(sep)` for a one-character separator: no collapsing of
consecutive separators, and `"".split(sep) = [""]` — the result is never
empty. -/
def pySplit (sep : Char) (s : Str) : List Str :=
  ((splitAux sep s).1) :: (splitAux sep s).2

/-- Python `sep.join(xs)` for a one-character separator. -/
def joinSep (sep : Char) : List Str → Str
  | [] => []
  | [l] => l
  | l :: l' :: ls => l ++ sep :: joinSep sep (l' :: ls)

/-- The Python exception (or error value) kinds the embedded code can
produce. -/
inductive PyErr where
  | indexError
  | typeError
  | valueError
deriving DecidableEq, Repr

/-- `Table` from `college/parser.py`: `contents` is the pair
`(categories, values)` exactly as stored by `Table.__init__`. -/
structure Table where
  name : Str
  contents : List Str × List (List Str)
deriving DecidableEq, Repr

/-- The underlying dict of `TableList`: an insertion-ordered mapping from
table name to stored contents. -/
abbrev TableList := List (Str × (List Str × List (List Str)))

/-- Python `dict.update({k: v})`: replace the value at `k` in place if the
key is present, else append the new binding. -/
def dictUpdate (d : TableList) (k : Str) (v : List Str × List (List Str)) :
    TableList :=
  match d with
  | [] => [(k, v)]
  | (k', v') :: rest =>
      if k' = k then (k', v) :: rest else (k', v') :: dictUpdate rest k v

/-- Python `dict.get(k)`: the value bound to `k`, `none` when absent. -/
def dictGet (d : TableList) (k : Str) : Option (List Str × List (List Str)) :=
  match d with
  | [] => none
  | (k', v') :: rest => if k' = k then some v' else dictGet rest k

/-- `TableList.append`: `self.table_list.update({table.name: table.contents})`. -/
def TableList.append (tl : TableList) (t : Table) : TableList :=
  dictUpdate tl t.name t.contents

/-- `TableList.translate_table`: the source returns the singleton dict
`{name: self.table_list.get(name)}`; its sole consumer immediately reads
`table[name]`, so the embedding returns that looked-up value, which is
`None` (here `none`) when the name is absent. -/
def TableList.translate_table (tl : TableList) (name : Str) :
    Option (List Str × List (List Str)) :=
  dictGet tl name

/-- The mutable fields of a `ContentParser` object.  The Python attribute
`end` is a Lean keyword and is rendered `endMarker`. -/
structure ContentParser where
  page : Option Str
  start : Str
  endMarker : Str
  content : Str
  tables : TableList
deriving DecidableEq, Repr

/-- `ContentParser.parse_content`.  When no page is set the source
*returns* (not raises) `IndexError()`; this normal return of an error
value is the `some PyErr.indexError` in the second component.  Otherwise
the method returns `None` (the `none`) after updating `content`:
appending the post-start suffix when the end marker is missing, appending
the pre-end prefix when only the start marker is missing, and replacing
`content` with the slice between the markers when both are found. -/
def ContentParser.parse_content (p : ContentParser) :
    ContentParser × Option PyErr :=
  match p.page with
  | none => (p, some PyErr.indexError)
  | some page_text =>
    let starting_point := pyFind page_text p.start
    let ending_point := pyFind page_text p.endMarker
    let newContent : Str :=
      if ending_point = -1 then
        p.content ++ pySlice page_text (starting_point + (p.start.length : Int))
          (page_text.length : Int)
      else if starting_point = -1 then
        p.content ++ pySlice page_text 0 ending_point
      else
        pySlice page_text (starting_point + (p.start.length : Int)) ending_point
    ({ p with content := newContent }, none)

/-- The windowing computation of `recieve_partial_content`:
`'\n'.join(content.split('\n')[start_line:end_line])`. -/
def window (content : Str) (start_line end_line : Int) : Str :=
  joinSep '\n' (pySlice (pySplit '\n' content) start_line end_line)

/-- `ContentParser.recieve_partial_content` (source spelling kept).  The
source's `if self.content is None: print(...)` only prints; `content` is
initialised to `''` and never `None`, so the embedding is the window of
the accumulated content. -/
def ContentParser.recieve_partial_content (p : ContentParser)
    (start_line end_line : Int) : Str :=
  window p.content start_line end_line

/-- One iteration of the row loop in `create_table_contents`, the part
that can raise: `curr_val_list = [line.split(' ')[-1],
line.split(' ')[-2], line.split(' ')[-3]]` in that evaluation order;
`none` models the `IndexError` raised by a too-short token list. -/
def parseRowVals (line : Str) : Option (List Str) := do
  let T := pySplit ' ' line
  let total_points ← pyGet T (-1)
  let item_value ← pyGet T (-2)
  let num_items ← pyGet T (-3)
  pure [total_points, item_value, num_items]

/-- The category computed for one line:
`''.join(line.split(' ')[0:-3])`. -/
def rowCategorySrc (line : Str) : Str :=
  (pySlice (pySplit ' ' line) 0 (-3)).flatten

/-- The row loop of `create_table_contents` over the retained lines, in
order; `none` models an uncaught `IndexError` aborting the whole call. -/
def buildRows : List Str → Option (List Str × List (List Str))
  | [] => some ([], [])
  | line :: rest => do
    let vals ← parseRowVals line
    let (cats, valss) ← buildRows rest
    pure (rowCategorySrc line :: cats, vals :: valss)

/-- The local variable `partial_content` of `create_table_contents`:
`self.recieve_partial_content(start_line, end_line).split('\n')[0:-1]` —
the windowed lines with the last one dropped unconditionally. -/
def ContentParser.partial_content (p : ContentParser)
    (start_line end_line : Int) : List Str :=
  pySlice (pySplit '\n' (p.recieve_partial_content start_line end_line))
    0 (-1)

/-- `ContentParser.create_table_contents`: window the content, re-split on
newlines, drop the last line with the `[0:-1]` slice, run the row loop,
and on success append the new `Table` to the catalog.  On an
`IndexError` the exception propagates before `self.tables.append` runs,
so the parser state is returned unchanged alongside the raised error. -/
def ContentParser.create_table_contents (p : ContentParser)
    (start_line end_line : Int) (table_name : Str) :
    ContentParser × Option PyErr :=
  match buildRows (p.partial_content start_line end_line) with
  | none => (p, some PyErr.indexError)
  | some (categories, values) =>
      ({ p with tables := p.tables.append ⟨table_name, (categories, values)⟩ },
        none)

/-- The four columns of the `pd.DataFrame` built by `grab_table`, in the
source's key order: `'Categories'`, `'Number of Graded Items'`,
`'Points per Item'`, `'Total Points'`. -/
structure DataFrame where
  categories : List Str
  num_graded_items : List Str
  points_per_item : List Str
  total_points : List Str
deriving DecidableEq, Repr

/-- The projection loop of `grab_table` over the reversed rows
`items_list`: reads `ls[0]`, `ls[1]`, `ls[2]` of each row in order; a
too-short row raises `IndexError`. -/
def projectRows : List (List Str) →
    Except PyErr (List Str × List Str × List Str)
  | [] => Except.ok ([], [], [])
  | ls :: rest =>
    match pyGet ls 0, pyGet ls 1, pyGet ls 2 with
    | some a, some b, some c =>
      match projectRows rest with
      | Except.ok (xs, ys, zs) => Except.ok (a :: xs, b :: ys, c :: zs)
      | Except.error e => Except.error e
    | _, _, _ => Except.error PyErr.indexError

/-- `ContentParser.grab_table`.  `translate_table` yields `None` for an
absent name, and the source then subscripts `None` (`table[name][1]`),
which raises `TypeError` — the code's concrete form of the design-level
"table not found" failure.  Otherwise each stored row is reversed
(`x[::-1]`) to natural order and split into three parallel columns; the
`pd.DataFrame` constructor raises `ValueError` on unequal column
lengths. -/
def ContentParser.grab_table (p : ContentParser) (name : Str) :
    Except PyErr DataFrame :=
  match p.tables.translate_table name with
  | none => Except.error PyErr.typeError
  | some (cats, vals) =>
    match projectRows (vals.map List.reverse) with
    | Except.error e => Except.error e
    | Except.ok (num_items, points, total_points) =>
      if cats.length = num_items.length ∧ num_items.length = points.length ∧
          points.length = total_points.length then
        Except.ok ⟨cats, num_items, points, total_points⟩
      else Except.error PyErr.valueError

/-! ### Specification-side vocabulary

Formulas used to *state* the claims, written from the spec's wording
("the last / second-to-last / third-to-last token", "all tokens
preceding the final 3 tokens"), to be compared with what the embedded
code computes. -/

/-- The `k`-th whitespace token of `line` counted from the end
(`k = 1` is the last token). -/
def tokFromEnd (line : Str) (k : Nat) : Str :=
  (pySplit ' ' line).getD ((pySplit ' ' line).length - k) []

/-- The separator-free concatenation of all tokens of `line` preceding
its final 3 tokens. -/
def rowCategorySpec (line : Str) : Str :=
  ((pySplit ' ' line).take ((pySplit ' ' line).length - 3)).flatten

/-- The stored fields of a row in parse order, per the spec:
`[total_points, item_value, num_items]` = the last, second-to-last and
third-to-last tokens of the line. -/
def rowFieldsSpec (line : Str) : List Str :=
  [tokFromEnd line 1, tokFromEnd line 2, tokFromEnd line 3]

/-- The substring `parse_content` extracts from a page text, as a pure
function of the three inputs (text, start marker, end marker): the
branch structure of the source with the accumulated content factored
out. -/
def extractDelta (t S E : Str) : Str :=
  if pyFind t E = -1 then
    pySlice t (pyFind t S + (S.length : Int)) (t.length : Int)
  else if pyFind t S = -1 then pySlice t 0 (pyFind t E)
  else pySlice t (pyFind t S + (S.length : Int)) (pyFind t E)

/-! ### Concrete parser states used by witnesses and counterexamples -/

/-- A parser holding the spec's grade-distribution example lines (the
`TOTAL` footer last). -/
def cpC1 : ContentParser :=
  ⟨none, [], [], chars "Quizzes 5 20 100\nHomework 10 10 100\nTOTAL 16 250",
    []⟩

/-- A parser whose first retained line has exactly 3 tokens. -/
def cpC2 : ContentParser := ⟨none, [], [], chars "5 20 100\nTOTAL", []⟩

/-- A parser whose first retained line has exactly 1 token. -/
def cpC2w : ContentParser := ⟨none, [], [], chars "x\nTOTAL", []⟩

/-- A parser with a page on which both markers occur, `A` before `B`. -/
def cpC3 : ContentParser :=
  ⟨some (chars "xAyB z"), chars "A", chars "B", chars "old", []⟩

/-- A parser whose catalog holds one table under another name. -/
def cpC4 : ContentParser := ⟨none, [], [], [], [(chars "Other", ([], []))]⟩

/-- A parser with three content lines, for two successive builds. -/
def cpC5 : ContentParser :=
  ⟨none, [], [], chars "A 1 2 3\nB 4 5 6\nT x y z", []⟩

/-- `cpC5` after building window `[0,2)` under name `G`. -/
def cpC5a : ContentParser :=
  ⟨none, [], [], chars "A 1 2 3\nB 4 5 6\nT x y z",
    [(chars "G", ([chars "A"], [[chars "3", chars "2", chars "1"]]))]⟩

/-- `cpC5a` after rebuilding window `[1,3)` under the same name `G`. -/
def cpC5b : ContentParser :=
  ⟨none, [], [], chars "A 1 2 3\nB 4 5 6\nT x y z",
    [(chars "G", ([chars "B"], [[chars "6", chars "5", chars "4"]]))]⟩

/-- A fresh parser with a page on which the end marker is absent. -/
def cpC6 : ContentParser := ⟨some (chars "uSvw"), chars "S", chars "Z", [], []⟩

/-- A parser with empty accumulated content; end marker absent from its
page. -/
def cpC7a : ContentParser := ⟨some (chars "ab"), chars "a", chars "z", [], []⟩

/-- Same page and markers as `cpC7a` but non-empty accumulated content. -/
def cpC7b : ContentParser :=
  ⟨some (chars "ab"), chars "a", chars "z", chars "X", []⟩

/-- A parser with one well-formed data line and a footer. -/
def cpC8 : ContentParser := ⟨none, [], [], chars "Quiz 5 20 100\nTOTAL", []⟩

/-- `cpC8` after a successful build under name `T`. -/
def cpC8r : ContentParser :=
  ⟨none, [], [], chars "Quiz 5 20 100\nTOTAL",
    [(chars "T", ([chars "Quiz"], [[chars "100", chars "20", chars "5"]]))]⟩

/-- A parser on which no page has been set. -/
def cpC10 : ContentParser := ⟨none, chars "S", chars "E", chars "abc", []⟩

/-! ### Lemmas about the Python-primitive embedding -/

theorem take_min_length {α : Type u} (l : List α) (a : Nat) :
    l.take (min a l.length) = l.take a := by
  rcases le_total a l.length with h | h
  · rw [min_eq_left h]
  · rw [min_eq_right h, List.take_length, List.take_of_length_le h]

theorem drop_min_of_length_le {α : Type u} (xs : List α) (a L : Nat)
    (h : xs.length ≤ L) : xs.drop (min a L) = xs.drop a := by
  rcases le_total a L with h' | h'
  · rw [min_eq_left h']
  · rw [min_eq_right h', List.drop_eq_nil_of_le h,
      List.drop_eq_nil_of_le (le_trans h h')]

/-- A Python slice with non-negative bounds is `take` then `drop`. -/
theorem pySlice_nonneg {α : Type u} (l : List α) {i j : Int}
    (hi : 0 ≤ i) (hj : 0 ≤ j) :
    pySlice l i j = (l.take j.toNat).drop i.toNat := by
  unfold pySlice normIdx
  rw [if_neg (by omega), if_neg (by omega), take_min_length,
    drop_min_of_length_le _ _ _ (by simp [List.length_take])]

/-- `l[0:n]` for non-negative `n` is `take`. -/
theorem pySlice_zero_nonneg {α : Type u} (l : List α) {n : Int} (hn : 0 ≤ n) :
    pySlice l 0 n = l.take n.toNat := by
  rw [pySlice_nonneg l le_rfl hn]
  simp

/-- `l[0:-1]` on a non-empty list drops the last element. -/
theorem pySlice_zero_negOne {α : Type u} (l : List α) (h : l ≠ []) :
    pySlice l 0 (-1) = l.dropLast := by
  have hL : 1 ≤ l.length := List.length_pos.mpr h
  unfold pySlice normIdx
  rw [if_neg (by omega), if_pos (by omega)]
  have h1 : ((-1 : Int) + l.length).toNat = l.length - 1 := by omega
  simp [h1, List.dropLast_eq_take]

/-- Negative Python indexing, in-range case. -/
theorem pyGet_neg_eq {α : Type u} (l : List α) (i : Int) (hi : i < 0)
    (h : 0 ≤ i + l.length) : pyGet l i = l.get? (i + l.length).toNat := by
  unfold pyGet
  rw [if_neg (by omega), if_neg (by omega)]

/-- Negative Python indexing, out-of-range case (`IndexError`). -/
theorem pyGet_neg_none {α : Type u} (l : List α) (i : Int) (hi : i < 0)
    (h : i + l.length < 0) : pyGet l i = none := by
  unfold pyGet
  rw [if_neg (by omega), if_pos h]

/-- An in-range `get?` returns the `getD` value. -/
theorem get?_eq_some_getD {α : Type u} (l : List α) (n : Nat) (d : α)
    (h : n < l.length) : l.get? n = some (l.getD n d) := by
  rw [List.getD_eq_getElem?_getD, List.get?_eq_getElem?]
  simp [List.getElem?_eq_getElem h]

/-- Non-negative Python indexing is `get?`. -/
theorem pyGet_ofNat {α : Type u} (l : List α) (k : Nat) :
    pyGet l (k : Int) = l.get? k := by
  unfold pyGet
  rw [if_pos (by omega), Int.toNat_ofNat]

theorem splitAux_no_sep {sep : Char} {l : Str} (h : sep ∉ l) :
    splitAux sep l = (l, []) := by
  induction l with
  | nil => rfl
  | cons c rest ih =>
    have hc : c ≠ sep := fun hcs => h (hcs ▸ List.mem_cons_self c rest)
    have hrest : sep ∉ rest := fun hm => h (List.mem_cons_of_mem c hm)
    simp [splitAux, ih hrest, hc]

theorem splitAux_append_sep {sep : Char} {l : Str} (t : Str) (h : sep ∉ l) :
    splitAux sep (l ++ sep :: t) =
      (l, (splitAux sep t).1 :: (splitAux sep t).2) := by
  induction l with
  | nil => simp [splitAux]
  | cons c rest ih =>
    have hc : c ≠ sep := fun hcs => h (hcs ▸ List.mem_cons_self c rest)
    have hrest : sep ∉ rest := fun hm => h (List.mem_cons_of_mem c hm)
    simp [splitAux, ih hrest, hc]

theorem splitAux_no_sep_mem {sep : Char} (s : Str) :
    sep ∉ (splitAux sep s).1 ∧ ∀ l ∈ (splitAux sep s).2, sep ∉ l := by
  induction s with
  | nil => simp [splitAux]
  | cons c rest ih =>
    by_cases hc : c = sep
    · simpa [splitAux, hc] using ih
    · simp only [splitAux, if_neg hc]
      refine ⟨?_, ih.2⟩
      intro hm
      rcases List.mem_cons.mp hm with h | h
      · exact hc h.symm
      · exact ih.1 h

/-- The fields produced by a Python split never contain the separator. -/
theorem not_mem_of_mem_pySplit {sep : Char} {s : Str} :
    ∀ l ∈ pySplit sep s, sep ∉ l := by
  intro l hl
  rcases List.mem_cons.mp hl with h | h
  · exact h ▸ (splitAux_no_sep_mem s).1
  · exact (splitAux_no_sep_mem s).2 l h

/-- Splitting undoes joining, for a non-empty family of separator-free
fields. -/
theorem pySplit_joinSep {sep : Char} {xs : List Str} (h : xs ≠ [])
    (hsep : ∀ l ∈ xs, sep ∉ l) : pySplit sep (joinSep sep xs) = xs := by
  induction xs with
  | nil => exact absurd rfl h
  | cons x rest ih =>
    cases rest with
    | nil =>
      have hx : sep ∉ x := hsep x (List.mem_cons_self x [])
      simp [joinSep, pySplit, splitAux_no_sep hx]
    | cons y ys =>
      have hx : sep ∉ x := hsep x (List.mem_cons_self x _)
      have hrest : ∀ l ∈ y :: ys, sep ∉ l := fun l hl =>
        hsep l (List.mem_cons_of_mem x hl)
      have ihr : (splitAux sep (joinSep sep (y :: ys))).1 ::
          (splitAux sep (joinSep sep (y :: ys))).2 = y :: ys :=
        ih (by simp) hrest
      simp only [joinSep, pySplit, splitAux_append_sep _ hx]
      rw [List.cons.injEq] at ihr
      simp [ihr.1, ihr.2]

/-- `startsWithL` decides the occurrence-at-the-front relation. -/
theorem startsWithL_eq_true_iff (sub : Str) : ∀ s : Str,
    startsWithL sub s = true ↔ ∃ t, s = sub ++ t := by
  induction sub with
  | nil => intro s; simp [startsWithL]
  | cons a sub ih =>
    intro s
    cases s with
    | nil =>
      simp [startsWithL]
    | cons b t =>
      simp only [startsWithL]
      by_cases hab : a = b
      · subst hab
        rw [if_pos rfl, ih t]
        constructor
        · rintro ⟨u, rfl⟩; exact ⟨u, rfl⟩
        · rintro ⟨u, hu⟩
          rw [List.cons_append, List.cons.injEq] at hu
          exact ⟨u, hu.2⟩
      · rw [if_neg hab]
        constructor
        · intro h; simp at h
        · rintro ⟨u, hu⟩
          rw [List.cons_append, List.cons.injEq] at hu
          exact absurd hu.1.symm hab

theorem pyFindAux_some {sub : Str} : ∀ (s : Str) (i n : Nat),
    pyFindAux sub s i = some n →
    i ≤ n ∧ startsWithL sub (s.drop (n - i)) = true ∧
      ∀ m < n - i, startsWithL sub (s.drop m) = false := by
  intro s
  induction s with
  | nil =>
    intro i n h
    unfold pyFindAux at h
    by_cases hs : startsWithL sub [] = true
    · rw [if_pos hs] at h
      cases h
      simpa using hs
    · rw [if_neg hs] at h
      cases h
  | cons c t ih =>
    intro i n h
    unfold pyFindAux at h
    by_cases hs : startsWithL sub (c :: t) = true
    · rw [if_pos hs] at h
      cases h
      simpa using hs
    · rw [if_neg hs] at h
      obtain ⟨hin, hfound, hleast⟩ := ih (i + 1) n h
      refine ⟨by omega, ?_, ?_⟩
      · have : n - i = (n - (i + 1)) + 1 := by omega
        rw [this]
        simpa using hfound
      · intro m hm
        cases m with
        | zero => simpa using Bool.not_eq_true _ ▸ hs
        | succ m' =>
          have : (c :: t).drop (m' + 1) = t.drop m' := by simp
          rw [this]
          exact hleast m' (by omega)

theorem pyFindAux_none {sub : Str} : ∀ (s : Str) (i : Nat),
    pyFindAux sub s i = none →
    ∀ m, startsWithL sub (s.drop m) = false := by
  intro s
  induction s with
  | nil =>
    intro i h m
    unfold pyFindAux at h
    by_cases hs : startsWithL sub [] = true
    · rw [if_pos hs] at h; cases h
    · simpa using Bool.not_eq_true _ ▸ hs
  | cons c t ih =>
    intro i h m
    unfold pyFindAux at h
    by_cases hs : startsWithL sub (c :: t) = true
    · rw [if_pos hs] at h; cases h
    · rw [if_neg hs] at h
      cases m with
      | zero => simpa using Bool.not_eq_true _ ▸ hs
      | succ m' =>
        have : (c :: t).drop (m' + 1) = t.drop m' := by simp
        rw [this]
        exact ih (i + 1) h m'

theorem pyFind_eq_of_aux_some {s sub : Str} {n : Nat}
    (hfa : pyFindAux sub s 0 = some n) : pyFind s sub = (n : Int) := by
  unfold pyFind
  rw [hfa]

theorem pyFind_eq_of_aux_none {s sub : Str}
    (hfa : pyFindAux sub s 0 = none) : pyFind s sub = -1 := by
  unfold pyFind
  rw [hfa]

/-- When `pyFind` reports an index, `sub` occurs there and at no smaller
index: Python's `find` returns the *first* occurrence. -/
theorem pyFind_first {s sub : Str} (h : 0 ≤ pyFind s sub) :
    startsWithL sub (s.drop (pyFind s sub).toNat) = true ∧
      ∀ m < (pyFind s sub).toNat, startsWithL sub (s.drop m) = false := by
  cases hfa : pyFindAux sub s 0 with
  | none => rw [pyFind_eq_of_aux_none hfa] at h; omega
  | some n =>
    obtain ⟨-, hfound, hleast⟩ := pyFindAux_some s 0 n hfa
    rw [pyFind_eq_of_aux_some hfa]
    simp only [Int.toNat_ofNat]
    exact ⟨by simpa using hfound, fun m hm => by
      simpa using hleast m (by omega)⟩

/-- When `pyFind` reports `-1`, `sub` occurs nowhere in `s`. -/
theorem pyFind_negOne {s sub : Str} (h : pyFind s sub = -1) :
    ∀ m, startsWithL sub (s.drop m) = false := by
  cases hfa : pyFindAux sub s 0 with
  | none => exact pyFindAux_none s 0 hfa
  | some n => rw [pyFind_eq_of_aux_some hfa] at h; omega

/-- `pyFind` is either `-1` or a genuine index. -/
theorem pyFind_cases (s sub : Str) : pyFind s sub = -1 ∨ 0 ≤ pyFind s sub := by
  cases hfa : pyFindAux sub s 0 with
  | none => exact Or.inl (pyFind_eq_of_aux_none hfa)
  | some n => exact Or.inr (by rw [pyFind_eq_of_aux_some hfa]; omega)

/-- Looking up a key just written into a Python dict returns the new
value (the overwrite semantics of `dict.update`). -/
theorem dictGet_dictUpdate (d : TableList) (k : Str)
    (v : List Str × List (List Str)) :
    dictGet (dictUpdate d k v) k = some v := by
  induction d with
  | nil => simp [dictUpdate, dictGet]
  | cons kv rest ih =>
    by_cases hk : kv.1 = k
    · simp [dictUpdate, dictGet, hk]
    · cases kv with
      | mk k' v' =>
        simp only at hk
        simp [dictUpdate, dictGet, hk, ih]

/-- A Python split has at least one field. -/
theorem pySplit_length_pos (sep : Char) (s : Str) :
    0 < (pySplit sep s).length := by
  simp [pySplit]

/-- On a line with at least 3 tokens the row loop body succeeds and
produces exactly the last, second-to-last and third-to-last tokens, in
that (parse) order. -/
theorem parseRowVals_eq_some {line : Str}
    (h : 3 ≤ (pySplit ' ' line).length) :
    parseRowVals line = some (rowFieldsSpec line) := by
  have h1 : pyGet (pySplit ' ' line) (-1) =
      some ((pySplit ' ' line).getD ((pySplit ' ' line).length - 1) []) := by
    rw [pyGet_neg_eq _ _ (by omega) (by omega)]
    have he : ((-1 : Int) + (pySplit ' ' line).length).toNat =
        (pySplit ' ' line).length - 1 := by omega
    rw [he]
    exact get?_eq_some_getD _ _ _ (by omega)
  have h2 : pyGet (pySplit ' ' line) (-2) =
      some ((pySplit ' ' line).getD ((pySplit ' ' line).length - 2) []) := by
    rw [pyGet_neg_eq _ _ (by omega) (by omega)]
    have he : ((-2 : Int) + (pySplit ' ' line).length).toNat =
        (pySplit ' ' line).length - 2 := by omega
    rw [he]
    exact get?_eq_some_getD _ _ _ (by omega)
  have h3 : pyGet (pySplit ' ' line) (-3) =
      some ((pySplit ' ' line).getD ((pySplit ' ' line).length - 3) []) := by
    rw [pyGet_neg_eq _ _ (by omega) (by omega)]
    have he : ((-3 : Int) + (pySplit ' ' line).length).toNat =
        (pySplit ' ' line).length - 3 := by omega
    rw [he]
    exact get?_eq_some_getD _ _ _ (by omega)
  simp [parseRowVals, h1, h2, h3, rowFieldsSpec, tokFromEnd]

/-- On a line with fewer than 3 tokens the row loop body raises
`IndexError` (the `none`). -/
theorem parseRowVals_eq_none {line : Str}
    (h : (pySplit ' ' line).length < 3) : parseRowVals line = none := by
  have hpos := pySplit_length_pos ' ' line
  have hcase : (pySplit ' ' line).length = 1 ∨
      (pySplit ' ' line).length = 2 := by omega
  rcases hcase with h1 | h2
  · have hg : pyGet (pySplit ' ' line) (-2) = none :=
      pyGet_neg_none _ _ (by omega) (by omega)
    simp [parseRowVals, hg]
  · have hg : pyGet (pySplit ' ' line) (-3) = none :=
      pyGet_neg_none _ _ (by omega) (by omega)
    simp [parseRowVals, hg]

/-- The category the source computes (`''.join(T[0:-3])`) is the
concatenation of all tokens preceding the final 3 tokens. -/
theorem normIdx_neg (L : Nat) (k : Int) (h : k < 0) :
    normIdx L k = (k + L).toNat := by
  unfold normIdx
  rw [if_pos h]

theorem normIdx_nonneg (L : Nat) (k : Int) (h : 0 ≤ k) :
    normIdx L k = min k.toNat L := by
  unfold normIdx
  rw [if_neg (by omega)]

theorem rowCategorySrc_eq_spec (line : Str) :
    rowCategorySrc line = rowCategorySpec line := by
  unfold rowCategorySrc rowCategorySpec
  congr 1
  unfold pySlice
  have hi : normIdx (pySplit ' ' line).length 0 = 0 := by
    rw [normIdx_nonneg _ _ le_rfl]
    simp
  have hj : normIdx (pySplit ' ' line).length (-3) =
      (pySplit ' ' line).length - 3 := by
    rw [normIdx_neg _ _ (by norm_num)]
    omega
  rw [hi, hj, List.drop_zero]

/-- When every line has at least 3 tokens the row loop succeeds, and the
stored categories and fields are the per-line spec formulas, in input
order. -/
theorem buildRows_eq_some {lines : List Str}
    (h : ∀ l ∈ lines, 3 ≤ (pySplit ' ' l).length) :
    buildRows lines =
      some (lines.map rowCategorySrc, lines.map rowFieldsSpec) := by
  induction lines with
  | nil => rfl
  | cons line rest ih =>
    have hline := h line (List.mem_cons_self line rest)
    have hrest := ih fun l hl => h l (List.mem_cons_of_mem line hl)
    simp [buildRows, parseRowVals_eq_some hline, hrest]

/-- If the row loop succeeded, every processed line had at least 3
tokens. -/
theorem buildRows_tokens {lines : List Str}
    {c : List Str × List (List Str)} (h : buildRows lines = some c) :
    ∀ l ∈ lines, 3 ≤ (pySplit ' ' l).length := by
  induction lines generalizing c with
  | nil => intro l hl; cases hl
  | cons line rest ih =>
    intro l hl
    rcases List.mem_cons.mp hl with rfl | hl'
    · by_contra hlt
      rw [buildRows, parseRowVals_eq_none (by omega)] at h
      simp at h
    · cases hv : parseRowVals line with
      | none => rw [buildRows, hv] at h; simp at h
      | some v =>
        cases hb : buildRows rest with
        | none => rw [buildRows, hv, hb] at h; simp at h
        | some c' => exact ih hb l hl'

/-- If the row loop raised, some processed line had fewer than 3
tokens (contrapositive packaging of `buildRows_eq_some`). -/
theorem buildRows_eq_none {lines : List Str}
    (h : ∃ l ∈ lines, (pySplit ' ' l).length < 3) :
    buildRows lines = none := by
  cases hb : buildRows lines with
  | none => rfl
  | some c =>
    obtain ⟨l, hl, hlt⟩ := h
    exact absurd (buildRows_tokens hb l hl) (by omega)

/-- The projection loop on length-3 rows: three parallel columns of the
0th, 1st and 2nd entries. -/
theorem projectRows_eq_ok {vals : List (List Str)}
    (h : ∀ v ∈ vals, v.length = 3) :
    projectRows vals = Except.ok
      (vals.map (fun v => v.getD 0 []), vals.map (fun v => v.getD 1 []),
        vals.map (fun v => v.getD 2 [])) := by
  induction vals with
  | nil => rfl
  | cons v rest ih =>
    have hv := h v (List.mem_cons_self v rest)
    have hrest := ih fun w hw => h w (List.mem_cons_of_mem v hw)
    have h0 : pyGet v 0 = some (v.getD 0 []) := by
      rw [show (0 : Int) = ((0 : Nat) : Int) by rfl, pyGet_ofNat]
      exact get?_eq_some_getD _ _ _ (by omega)
    have h1 : pyGet v 1 = some (v.getD 1 []) := by
      rw [show (1 : Int) = ((1 : Nat) : Int) by rfl, pyGet_ofNat]
      exact get?_eq_some_getD _ _ _ (by omega)
    have h2 : pyGet v 2 = some (v.getD 2 []) := by
      rw [show (2 : Int) = ((2 : Nat) : Int) by rfl, pyGet_ofNat]
      exact get?_eq_some_getD _ _ _ (by omega)
    simp [projectRows, h0, h1, h2, hrest]

/-- `create_table_contents` on a failing row loop: the raised
`IndexError` propagates before `tables.append` runs, so the whole
parser state — catalog included — is unchanged. -/
theorem create_eq_error {p : ContentParser} {s e : Int} {n : Str}
    (h : buildRows (p.partial_content s e) = none) :
    p.create_table_contents s e n = (p, some PyErr.indexError) := by
  unfold ContentParser.create_table_contents
  rw [h]

/-- `create_table_contents` on a successful row loop appends the new
table under the requested name and returns normally. -/
theorem create_eq_ok {p : ContentParser} {s e : Int} {n : Str}
    {c : List Str × List (List Str)}
    (h : buildRows (p.partial_content s e) = some c) :
    p.create_table_contents s e n =
      ({ p with tables := p.tables.append ⟨n, c⟩ }, none) := by
  obtain ⟨cats, vals⟩ := c
  unfold ContentParser.create_table_contents
  rw [h]

/-- `grab_table` with a name absent from the catalog: `dict.get` yields
`None`, and subscripting it raises `TypeError`. -/
theorem grab_eq_error_of_absent {p : ContentParser} {name : Str}
    (h : TableList.translate_table p.tables name = none) :
    p.grab_table name = Except.error PyErr.typeError := by
  unfold ContentParser.grab_table
  rw [h]

/-- `grab_table` reads the catalog only through `translate_table`. -/
theorem grab_table_congr {p q : ContentParser} {name : Str}
    (h : TableList.translate_table p.tables name =
      TableList.translate_table q.tables name) :
    p.grab_table name = q.grab_table name := by
  unfold ContentParser.grab_table
  rw [h]

/-- `grab_table` on a stored table of length-3 rows: each row is
reversed and fanned out into three parallel columns. -/
theorem grab_table_ok {p : ContentParser} {name : Str}
    {cats : List Str} {vals : List (List Str)}
    (ht : TableList.translate_table p.tables name = some (cats, vals))
    (hv : ∀ v ∈ vals, v.length = 3)
    (hlen : cats.length = vals.length) :
    p.grab_table name = Except.ok
      ⟨cats, vals.map (fun v => v.reverse.getD 0 []),
        vals.map (fun v => v.reverse.getD 1 []),
        vals.map (fun v => v.reverse.getD 2 [])⟩ := by
  have h3 : ∀ w ∈ vals.map List.reverse, w.length = 3 := by
    intro w hw
    obtain ⟨v, hvm, rfl⟩ := List.mem_map.mp hw
    simpa using hv v hvm
  unfold ContentParser.grab_table
  rw [ht]
  dsimp only
  rw [projectRows_eq_ok h3]
  dsimp only
  rw [if_pos (by simp [hlen])]
  simp [List.map_map, Function.comp]

/-- Windowing from 0 with a non-negative end bound takes a prefix of the
line list. -/
theorem window_zero_nonneg (content : Str) {n : Int} (hn : 0 ≤ n) :
    window content 0 n =
      joinSep '\n' ((pySplit '\n' content).take n.toNat) := by
  unfold window
  rw [pySlice_zero_nonneg _ hn]

/-- Re-splitting a joined non-empty field list (fields produced by a
split, hence newline-free) gives the fields back. -/
theorem pySplit_joinSep_of_sub {s : Str} {xs : List Str} (h : xs ≠ [])
    (hsub : ∀ l ∈ xs, l ∈ pySplit '\n' s) :
    pySplit '\n' (joinSep '\n' xs) = xs :=
  pySplit_joinSep h fun l hl => not_mem_of_mem_pySplit l (hsub l hl)

/-! ### Claims -/

/-- C10: for every parser state in which no page has been set,
`parse_content` does not raise: it *returns* an `IndexError` value (a
normal return, not an error signal) and leaves the whole state — the
accumulated content included — unchanged. -/
theorem C10_no_page_returns_error_value (p : ContentParser)
    (h : p.page = none) : p.parse_content = (p, some PyErr.indexError) := by
  unfold ContentParser.parse_content
  rw [h]

/-- Witness for C10 at a concrete page-less parser. -/
theorem C10_witness :
    cpC10.page = none ∧
      cpC10.parse_content = (cpC10, some PyErr.indexError) :=
  ⟨rfl, C10_no_page_returns_error_value cpC10 rfl⟩

/-- C4: for every catalog and every name absent from it, `grab_table`
fails with an error surfaced to the caller (the design's
`TableNotFoundError`; concretely the code subscripts the `None` returned
by `dict.get`, raising `TypeError`). -/
theorem C4_absent_name_fails (p : ContentParser) (name : Str)
    (h : TableList.translate_table p.tables name = none) :
    p.grab_table name = Except.error PyErr.typeError :=
  grab_eq_error_of_absent h

/-- Witness for C4 on a catalog not containing the requested name. -/
theorem C4_witness :
    TableList.translate_table cpC4.tables (chars "G") = none ∧
      cpC4.grab_table (chars "G") = Except.error PyErr.typeError :=
  ⟨by decide, C4_absent_name_fails cpC4 (chars "G") (by decide)⟩

/-- C3: when both markers occur in the page text and the first occurrence
of the start marker precedes the first occurrence of the end marker,
`parse_content` sets the content to exactly the substring strictly
between the end of the first start-marker occurrence and the start of
the first end-marker occurrence. -/
theorem C3_extract_between (p : ContentParser) (t : Str)
    (hpage : p.page = some t)
    (hS : 0 ≤ pyFind t p.start) (hE : 0 ≤ pyFind t p.endMarker)
    (_hlt : pyFind t p.start < pyFind t p.endMarker) :
    (p.parse_content).1.content =
      (t.take (pyFind t p.endMarker).toNat).drop
        ((pyFind t p.start).toNat + p.start.length) := by
  unfold ContentParser.parse_content
  rw [hpage]
  dsimp only
  rw [if_neg (by omega), if_neg (by omega)]
  rw [pySlice_nonneg t (by omega) (by omega)]
  congr 1
  omega

/-- Witness for C3: page `"xAyB z"`, markers `"A"` and `"B"`; the
extracted content is the text strictly between them. -/
theorem C3_witness :
    0 ≤ pyFind (chars "xAyB z") (chars "A") ∧
    0 ≤ pyFind (chars "xAyB z") (chars "B") ∧
    pyFind (chars "xAyB z") (chars "A") <
      pyFind (chars "xAyB z") (chars "B") ∧
    (cpC3.parse_content).1.content =
      ((chars "xAyB z").take (pyFind (chars "xAyB z") (chars "B")).toNat).drop
        ((pyFind (chars "xAyB z") (chars "A")).toNat + (chars "A").length) :=
  ⟨by decide, by decide, by decide,
    C3_extract_between cpC3 (chars "xAyB z") rfl (by decide) (by decide)
      (by decide)⟩

/-- C6: when the end marker does not occur in the page text (and the
start marker does), `parse_content` on a fresh parser (empty accumulated
content) produces exactly the suffix of the text starting immediately
after the first occurrence of the start marker. -/
theorem C6_no_end_marker_suffix (p : ContentParser) (t : Str)
    (hpage : p.page = some t) (hfresh : p.content = [])
    (hE : pyFind t p.endMarker = -1) (hS : 0 ≤ pyFind t p.start) :
    (p.parse_content).1.content =
      t.drop ((pyFind t p.start).toNat + p.start.length) := by
  unfold ContentParser.parse_content
  rw [hpage]
  dsimp only
  rw [if_pos hE, hfresh, List.nil_append]
  rw [pySlice_nonneg t (by omega) (by omega)]
  rw [Int.toNat_natCast, List.take_length]
  congr 1
  omega

/-- Witness for C6: page `"uSvw"`, start `"S"`, absent end `"Z"`; the
fresh parser ends up holding the suffix `"vw"`. -/
theorem C6_witness :
    cpC6.content = [] ∧
    pyFind (chars "uSvw") (chars "Z") = -1 ∧
    0 ≤ pyFind (chars "uSvw") (chars "S") ∧
    (cpC6.parse_content).1.content =
      (chars "uSvw").drop
        ((pyFind (chars "uSvw") (chars "S")).toNat + (chars "S").length) :=
  ⟨rfl, by decide, by decide,
    C6_no_end_marker_suffix cpC6 (chars "uSvw") rfl rfl (by decide)
      (by decide)⟩

/-- C7 counterexample: two parser states agreeing on all three inputs
(page text, start marker, end marker) but with different previously
accumulated content produce different results, because the
missing-end-marker branch *appends* to `content`.  So `parse_content`
is not a pure function of its three inputs. -/
theorem C7_counterexample :
    cpC7a.page = cpC7b.page ∧ cpC7a.start = cpC7b.start ∧
    cpC7a.endMarker = cpC7b.endMarker ∧
    (cpC7a.parse_content).1.content ≠ (cpC7b.parse_content).1.content := by
  decide

/-- C7 as amended: the substring `parse_content` extracts is a pure
function `extractDelta` of the three inputs, and no field other than
`content` changes; but the resulting content is the extracted substring
*appended to the prior content* whenever a marker is missing (it
replaces the prior content only when both markers are found), so the
method is not state-independent. -/
theorem C7_delta_pure (p : ContentParser) (t : Str)
    (hpage : p.page = some t) :
    (p.parse_content).1 =
      { p with content :=
          (if pyFind t p.endMarker = -1 ∨ pyFind t p.start = -1 then
            p.content
          else []) ++ extractDelta t p.start p.endMarker } ∧
    (p.parse_content).2 = none := by
  unfold ContentParser.parse_content extractDelta
  rw [hpage]
  dsimp only
  by_cases hE : pyFind t p.endMarker = -1
  · simp [hE]
  · by_cases hS : pyFind t p.start = -1
    · simp [hE, hS]
    · simp [hE, hS]

/-- Witness for the amended C7 at a concrete state with prior content. -/
theorem C7_witness :
    (cpC7b.parse_content).1 =
      { cpC7b with content :=
          (if pyFind (chars "ab") cpC7b.endMarker = -1 ∨
              pyFind (chars "ab") cpC7b.start = -1 then
            cpC7b.content
          else []) ++
            extractDelta (chars "ab") cpC7b.start cpC7b.endMarker } ∧
    (cpC7b.parse_content).2 = none :=
  C7_delta_pure cpC7b (chars "ab") rfl

/-- C9 counterexample: with the negative end bound `n = -1` the window
is not idempotent — Python's negative slice index counts from the end,
so each application drops one more line. -/
theorem C9_counterexample :
    window (window (chars "a\nb\nc") 0 (-1)) 0 (-1) ≠
      window (chars "a\nb\nc") 0 (-1) := by
  decide

/-- C9 as amended: windowing from 0 is idempotent for every
*non-negative* end bound `n`:
`window (window text 0 n) 0 n = window text 0 n`. -/
theorem C9_window_idempotent (content : Str) (n : Int) (hn : 0 ≤ n) :
    window (window content 0 n) 0 n = window content 0 n := by
  rw [window_zero_nonneg content hn]
  rcases Nat.eq_zero_or_pos n.toNat with h0 | hpos
  · rw [h0, List.take_zero]
    rw [window_zero_nonneg _ hn, h0, List.take_zero]
  · have hne : (pySplit '\n' content).take n.toNat ≠ [] := by
      rw [Ne, List.take_eq_nil_iff]
      push_neg
      exact ⟨by omega, by simp [pySplit]⟩
    have hrt : pySplit '\n'
        (joinSep '\n' ((pySplit '\n' content).take n.toNat)) =
        (pySplit '\n' content).take n.toNat :=
      pySplit_joinSep_of_sub (s := content) hne
        (fun l hl => List.mem_of_mem_take hl)
    rw [window_zero_nonneg _ hn, hrt,
      List.take_of_length_le (by simp [List.length_take])]

/-- Witness for the amended C9 at a concrete text and bound. -/
theorem C9_witness :
    (0 : Int) ≤ 2 ∧
      window (window (chars "a\nb\nc") 0 2) 0 2 =
        window (chars "a\nb\nc") 0 2 :=
  ⟨by decide, C9_window_idempotent (chars "a\nb\nc") 2 (by decide)⟩

/-- C2 counterexample: a line with exactly 3 tokens — fewer than the 4
the claim requires — does *not* make the build fail: the call returns
normally and the table (with an empty category) is inserted into the
catalog.  The code only fails below 3 tokens, because `T[-1]`, `T[-2]`,
`T[-3]` succeed on a 3-token list and `''.join(T[0:-3])` is then `''`. -/
theorem C2_counterexample :
    cpC2.partial_content 0 2 = [chars "5 20 100"] ∧
    (pySplit ' ' (chars "5 20 100")).length < 4 ∧
    (cpC2.create_table_contents 0 2 (chars "G")).2 = none ∧
    TableList.translate_table
        ((cpC2.create_table_contents 0 2 (chars "G")).1).tables (chars "G") =
      some ([[]], [[chars "100", chars "20", chars "5"]]) := by
  decide

/-- C2 as amended: a line with fewer than **3** single-space tokens makes
the build call fail — the code raises a plain `IndexError` (the spec's
`MalformedRowError`; the exception does not name the line) — and the
catalog is left unchanged: no table, not even a partial one, is inserted
under the requested name.  Lines with exactly 3 tokens are accepted
(with an empty category) rather than rejected. -/
theorem C2_malformed_row_aborts (p : ContentParser) (s e : Int) (name : Str)
    (h : ∃ line ∈ p.partial_content s e, (pySplit ' ' line).length < 3) :
    p.create_table_contents s e name = (p, some PyErr.indexError) :=
  create_eq_error (buildRows_eq_none h)

/-- Witness for the amended C2: a 1-token line aborts the build and
leaves the parser (catalog included) unchanged. -/
theorem C2_witness :
    (∃ line ∈ cpC2w.partial_content 0 2,
      (pySplit ' ' line).length < 3) ∧
    cpC2w.create_table_contents 0 2 (chars "N") =
      (cpC2w, some PyErr.indexError) :=
  ⟨by decide, C2_malformed_row_aborts cpC2w 0 2 (chars "N") (by decide)⟩

/-- C8: every row stored by a successful build has a `fields` list of
exactly 3 elements, in parse order — the last, second-to-last and
third-to-last space-delimited tokens of its line — and its category is
the separator-free concatenation of all tokens preceding the final 3
tokens. -/
theorem C8_stored_row_shape (p : ContentParser) (s e : Int) (name : Str)
    (p' : ContentParser)
    (h : p.create_table_contents s e name = (p', none)) :
    ∃ cats vals,
      TableList.translate_table p'.tables name = some (cats, vals) ∧
      cats = (p.partial_content s e).map rowCategorySpec ∧
      vals = (p.partial_content s e).map rowFieldsSpec ∧
      ∀ v ∈ vals, v.length = 3 := by
  cases hb : buildRows (p.partial_content s e) with
  | none =>
    rw [create_eq_error hb] at h
    simp at h
  | some c =>
    have htok := buildRows_tokens hb
    have hc : c = ((p.partial_content s e).map rowCategorySrc,
        (p.partial_content s e).map rowFieldsSpec) := by
      rw [buildRows_eq_some htok] at hb
      exact (Option.some.inj hb).symm
    subst hc
    rw [create_eq_ok hb] at h
    have hp' : p' =
        { p with tables := p.tables.append (Table.mk name
            ((p.partial_content s e).map rowCategorySrc,
              (p.partial_content s e).map rowFieldsSpec)) } := by
      injection h with h1 h2
      exact h1.symm
    subst hp'
    refine ⟨(p.partial_content s e).map rowCategorySrc,
      (p.partial_content s e).map rowFieldsSpec,
      dictGet_dictUpdate p.tables name _, ?_, rfl, ?_⟩
    · have hfun : rowCategorySrc = rowCategorySpec :=
        funext rowCategorySrc_eq_spec
      rw [hfun]
    · intro v hv
      obtain ⟨l, -, rfl⟩ := List.mem_map.mp hv
      rfl

/-- Witness for C8: a concrete successful build whose stored table is
examined. -/
theorem C8_witness :
    cpC8.create_table_contents 0 2 (chars "T") = (cpC8r, none) ∧
    ∃ cats vals,
      TableList.translate_table cpC8r.tables (chars "T") =
        some (cats, vals) ∧
      cats = (cpC8.partial_content 0 2).map rowCategorySpec ∧
      vals = (cpC8.partial_content 0 2).map rowFieldsSpec ∧
      ∀ v ∈ vals, v.length = 3 :=
  ⟨by decide, C8_stored_row_shape cpC8 0 2 (chars "T") cpC8r (by decide)⟩

/-- Building with the full line range `[0, number-of-lines)` retains
exactly the line list of the accumulated content minus its last line. -/
theorem partial_content_full (p : ContentParser) :
    p.partial_content 0 ((pySplit '\n' p.content).length : Int) =
      (pySplit '\n' p.content).dropLast := by
  unfold ContentParser.partial_content ContentParser.recieve_partial_content
  rw [window_zero_nonneg _ (by omega), Int.toNat_natCast, List.take_length]
  rw [pySplit_joinSep_of_sub (s := p.content) (by simp [pySplit])
    (fun l hl => hl)]
  exact pySlice_zero_negOne _ (by simp [pySplit])

/-- C5: building a second table under a name already present fully
replaces the prior entry — the catalog entry and the subsequent
projection agree with those of a single build of the second window,
with the first build skipped entirely (no merge of rows). -/
theorem C5_second_build_overwrites (p p1 p2 : ContentParser)
    (s1 e1 s2 e2 : Int) (name : Str)
    (h1 : p.create_table_contents s1 e1 name = (p1, none))
    (h2 : p1.create_table_contents s2 e2 name = (p2, none)) :
    p.create_table_contents s2 e2 name =
      ((p.create_table_contents s2 e2 name).1, none) ∧
    TableList.translate_table p2.tables name =
      TableList.translate_table
        ((p.create_table_contents s2 e2 name).1).tables name ∧
    p2.grab_table name =
      ((p.create_table_contents s2 e2 name).1).grab_table name := by
  cases hb1 : buildRows (p.partial_content s1 e1) with
  | none =>
    rw [create_eq_error hb1] at h1
    simp at h1
  | some c1 =>
    rw [create_eq_ok hb1] at h1
    have hp1 : p1 = { p with tables := p.tables.append (Table.mk name c1) } := by
      injection h1 with ha hb
      exact ha.symm
    subst hp1
    cases hb2 : buildRows
        (ContentParser.partial_content
          { p with tables := p.tables.append (Table.mk name c1) } s2 e2) with
    | none =>
      rw [create_eq_error hb2] at h2
      simp at h2
    | some c2 =>
      rw [create_eq_ok hb2] at h2
      have hp2 : p2 = { p with tables :=
          (p.tables.append (Table.mk name c1)).append (Table.mk name c2) } := by
        injection h2 with ha hb
        exact ha.symm
      subst hp2
      have hb2' : buildRows (p.partial_content s2 e2) = some c2 := hb2
      rw [create_eq_ok hb2']
      have htr : TableList.translate_table
          ((p.tables.append (Table.mk name c1)).append (Table.mk name c2))
            name =
          TableList.translate_table (p.tables.append (Table.mk name c2))
            name := by
        show dictGet (dictUpdate (dictUpdate p.tables name c1) name c2) name =
          dictGet (dictUpdate p.tables name c2) name
        rw [dictGet_dictUpdate, dictGet_dictUpdate]
      exact ⟨rfl, htr, grab_table_congr htr⟩

/-- Witness for C5: two concrete successive builds under the same name;
the second fully replaces the first. -/
theorem C5_witness :
    cpC5.create_table_contents 0 2 (chars "G") = (cpC5a, none) ∧
    cpC5a.create_table_contents 1 3 (chars "G") = (cpC5b, none) ∧
    cpC5.create_table_contents 1 3 (chars "G") =
      ((cpC5.create_table_contents 1 3 (chars "G")).1, none) ∧
    TableList.translate_table cpC5b.tables (chars "G") =
      TableList.translate_table
        ((cpC5.create_table_contents 1 3 (chars "G")).1).tables (chars "G") ∧
    cpC5b.grab_table (chars "G") =
      ((cpC5.create_table_contents 1 3 (chars "G")).1).grab_table
        (chars "G") :=
  ⟨by decide, by decide,
    C5_second_build_overwrites cpC5 cpC5a cpC5b 0 2 1 3 (chars "G")
      (by decide) (by decide)⟩

/-- C1: for an input text with line sequence `L`, building over the full
line range and then projecting yields four parallel columns with one
entry per line of `L` except the unconditionally dropped last line, in
the original order, with each row's fields restored to natural order:
`categories[i]` is the category of the `i`-th retained line,
`num_items[i]` its third-from-last token, `points_per_item[i]` its
second-from-last token and `total_points[i]` its last token.  (The build
succeeds when every retained line tokenizes; the hypothesis states
that.) -/
theorem C1_build_project_round_trip (p : ContentParser) (name : Str)
    (h : ∀ line ∈ (pySplit '\n' p.content).dropLast,
      3 ≤ (pySplit ' ' line).length) :
    ∃ p' df,
      p.create_table_contents 0 ((pySplit '\n' p.content).length : Int) name
        = (p', none) ∧
      p'.grab_table name = Except.ok df ∧
      df.categories =
        ((pySplit '\n' p.content).dropLast).map rowCategorySpec ∧
      df.num_graded_items =
        ((pySplit '\n' p.content).dropLast).map (fun l => tokFromEnd l 3) ∧
      df.points_per_item =
        ((pySplit '\n' p.content).dropLast).map (fun l => tokFromEnd l 2) ∧
      df.total_points =
        ((pySplit '\n' p.content).dropLast).map (fun l => tokFromEnd l 1) := by
  have hpc := partial_content_full p
  have h' : ∀ line ∈ p.partial_content 0
      ((pySplit '\n' p.content).length : Int),
      3 ≤ (pySplit ' ' line).length := by
    rw [hpc]
    exact h
  have hb := buildRows_eq_some h'
  have ht : TableList.translate_table
      (ContentParser.tables { p with tables := p.tables.append (Table.mk name
        ((p.partial_content 0 ((pySplit '\n' p.content).length : Int)).map
            rowCategorySrc,
          (p.partial_content 0
            ((pySplit '\n' p.content).length : Int)).map rowFieldsSpec)) })
      name =
      some ((p.partial_content 0
          ((pySplit '\n' p.content).length : Int)).map rowCategorySrc,
        (p.partial_content 0
          ((pySplit '\n' p.content).length : Int)).map rowFieldsSpec) :=
    dictGet_dictUpdate p.tables name _
  refine ⟨_, _, create_eq_ok hb, grab_table_ok ht ?_ ?_, ?_, ?_, ?_, ?_⟩
  · intro v hv
    obtain ⟨l, -, rfl⟩ := List.mem_map.mp hv
    rfl
  · simp
  · rw [hpc]
    dsimp only
    rw [show rowCategorySrc = rowCategorySpec from
      funext rowCategorySrc_eq_spec]
  · rw [hpc]
    dsimp only
    rw [List.map_map]
    rfl
  · rw [hpc]
    dsimp only
    rw [List.map_map]
    rfl
  · rw [hpc]
    dsimp only
    rw [List.map_map]
    rfl

/-- Witness for C1 on the spec's grade-distribution example (footer line
dropped). -/
theorem C1_witness :
    (∀ line ∈ (pySplit '\n' cpC1.content).dropLast,
      3 ≤ (pySplit ' ' line).length) ∧
    ∃ p' df,
      cpC1.create_table_contents 0
        ((pySplit '\n' cpC1.content).length : Int) (chars "G")
        = (p', none) ∧
      p'.grab_table (chars "G") = Except.ok df ∧
      df.categories =
        ((pySplit '\n' cpC1.content).dropLast).map rowCategorySpec ∧
      df.num_graded_items =
        ((pySplit '\n' cpC1.content).dropLast).map (fun l => tokFromEnd l 3) ∧
      df.points_per_item =
        ((pySplit '\n' cpC1.content).dropLast).map (fun l => tokFromEnd l 2) ∧
      df.total_points =
        ((pySplit '\n' cpC1.content).dropLast).map (fun l => tokFromEnd l 1) :=
  ⟨by decide, C1_build_project_round_trip cpC1 (chars "G") (by decide)⟩
